import Mathlib

/-!
Verification of dir-permission-watcher (its `src/main.rs`).

Shallow embedding of the daemon in `src/main.rs`.  Filesystem paths are
modelled as lists of path components (Rust `Path::components`), so Rust's
`Path::starts_with` is component-wise list prefix.  The OS filesystem is
modelled as an association list from paths to a `FileInfo` record carrying the
current permission bits together with two environment flags saying whether a
`fs::metadata` read or a `fs::set_permissions` call on that path fails.
Machine integers are `Nat`; `mode & 0o777` on a `u32` is `mode &&& 511`.
-/

namespace DirPermWatcher

/-- A filesystem path, as its list of components (`Path::components`). -/
abbrev FsPath := List String

/-- The `Config` struct of `main.rs` (lines 15-20): watch roots, ignore roots
and the desired permission, the latter kept as the raw string exactly as in
the Rust struct (it is parsed with `u32::from_str_radix(_, 8)` at use sites). -/
structure Config where
  watch_dirs : List FsPath
  ignore_dirs : List FsPath
  desired_permission : String
deriving DecidableEq

/-- Error kinds of the embedded code paths. -/
inductive IOErr
  | notFound
  | permDenied
  | invalidInput
  | otherErr
deriving DecidableEq

/-- Octal digit test, as in `u32::from_str_radix(s, 8)`. -/
def isOctDigit (c : Char) : Bool := decide ('0' ≤ c) && decide (c ≤ '7')

/-- Value of a list of octal digit characters, most significant first. -/
def octDigitsVal (l : List Char) : Nat :=
  l.foldl (fun a c => a * 8 + (c.toNat - 48)) 0

/-- Model of `u32::from_str_radix(s, 8)`: an optional leading `+`, then a nonempty
string of octal digits whose value fits in a `u32`; anything else is an
error (`none`). -/
def fromStrRadix8 (s : String) : Option Nat :=
  let cs := s.toList
  let ds := match cs with
    | '+' :: rest => rest
    | _ => cs
  if ds.isEmpty then none
  else if ds.all isOctDigit then
    let v := octDigitsVal ds
    if v < 4294967296 then some v else none
  else none

/-- Embedding of `PermissionChecker::should_process_file` (lines 75-89): returns `false`
iff the path starts with (component-wise, `Path::starts_with`) one of the
configured ignore directories. -/
def should_process_file (cfg : Config) (p : FsPath) : Bool :=
  !cfg.ignore_dirs.any (fun d => d.isPrefixOf p)

/-- The loop body of `PermissionChecker::check_permissions` (lines 96-108)
over the list of paths yielded by the `walkdir` traversal (entries whose
traversal itself errored are already dropped by `.filter_map(|e| e.ok())`).
For each entry, the ignore test runs first; only then is `fs::metadata`
consulted (modelled by `meta`), and a metadata error is propagated by `?`,
aborting the whole walk.  A surviving entry whose mode differs from
`desired` on the low 9 bits is recorded as a violation. -/
def checkWalk (cfg : Config) (meta : FsPath → Except IOErr Nat) (desired : Nat) :
    List FsPath → Except IOErr (List FsPath)
  | [] => Except.ok []
  | p :: rest =>
    if should_process_file cfg p then
      match meta p with
      | Except.error e => Except.error e
      | Except.ok mode =>
        match checkWalk cfg meta desired rest with
        | Except.error e => Except.error e
        | Except.ok vs =>
          Except.ok (if (mode &&& 511) == desired then vs else p :: vs)
    else
      checkWalk cfg meta desired rest

/-- Embedding of `PermissionChecker::check_permissions` (lines 91-111): parse
`desired_permission` in radix 8 (an `InvalidInput` error on failure), then
walk the given entries. -/
def check_permissions (cfg : Config) (meta : FsPath → Except IOErr Nat)
    (entries : List FsPath) : Except IOErr (List FsPath) :=
  match fromStrRadix8 cfg.desired_permission with
  | none => Except.error IOErr.invalidInput
  | some desired => checkWalk cfg meta desired entries

/-- State of one file in the modelled filesystem: its permission bits plus
environment flags saying whether `fs::metadata` / `fs::set_permissions`
fail on it. -/
structure FileInfo where
  mode : Nat
  readFails : Bool
  chmodFails : Bool
deriving DecidableEq

/-- The modelled filesystem: an association list from paths to file state. -/
abbrev Fs := List (FsPath × FileInfo)

/-- First entry of the filesystem at a path. -/
def fsFind : Fs → FsPath → Option FileInfo
  | [], _ => none
  | (q, i) :: rest, p => if q = p then some i else fsFind rest p

/-- Model of `fs::metadata(path)` followed by `.permissions().mode()`: absent paths
give `NotFound`, paths whose read fails give an error, otherwise the mode. -/
def metaOf (fs : Fs) (p : FsPath) : Except IOErr Nat :=
  match fsFind fs p with
  | none => Except.error IOErr.notFound
  | some i => if i.readFails then Except.error IOErr.permDenied else Except.ok i.mode

/-- Overwrite the stored mode of every entry at path `p` with `m`. -/
def fsSet : Fs → FsPath → Nat → Fs
  | [], _, _ => []
  | (q, i) :: rest, p, m =>
    (q, if q = p then { i with mode := m } else i) :: fsSet rest p m

/-- Model of `fs::set_permissions(path, perms)` where `perms` carries mode `m`
(`chmod`): fails on absent paths or when the environment says so, otherwise
stores the low 12 bits of `m` (`chmod` applies `m & 0o7777`). -/
def chmodAt (fs : Fs) (p : FsPath) (m : Nat) : Fs × Option IOErr :=
  match fsFind fs p with
  | none => (fs, some IOErr.notFound)
  | some i =>
    if i.chmodFails then (fs, some IOErr.permDenied)
    else (fsSet fs p (m &&& 4095), none)

/-- The loop body of `PermissionChecker::change_permissions` (lines
117-126): for each file, `fs::metadata(&file)?` then
`perms.set_mode(desired)` and `fs::set_permissions(&file, perms)?`; both
`?`s abort the loop immediately, returning the error while keeping the
changes already applied to earlier files. -/
def changeWalk (desired : Nat) (fs : Fs) : List FsPath → Fs × Option IOErr
  | [] => (fs, none)
  | f :: rest =>
    match metaOf fs f with
    | Except.error e => (fs, some e)
    | Except.ok _ =>
      match chmodAt fs f desired with
      | (fs2, some e) => (fs2, some e)
      | (fs2, none) => changeWalk desired fs2 rest

/-- Embedding of `PermissionChecker::change_permissions` (lines 113-129): parse
`desired_permission` in radix 8, then chmod each file in turn. -/
def change_permissions (cfg : Config) (fs : Fs) (files : List FsPath) :
    Fs × Option IOErr :=
  match fromStrRadix8 cfg.desired_permission with
  | none => (fs, some IOErr.invalidInput)
  | some desired => changeWalk desired fs files

/-- The loop body of `PermissionChecker::run_check` (lines 140-151) over the
configured watch roots; `walk` gives the `walkdir` entry list of each root.
A `check_permissions` error is logged (`warn!`) and the next root proceeds; a
nonempty violation list is passed to `change_permissions`, whose error is
propagated by `?`, aborting the remaining roots. -/
def runRoots (cfg : Config) (walk : FsPath → List FsPath) (fs : Fs) :
    List FsPath → Fs × Option IOErr
  | [] => (fs, none)
  | dir :: rest =>
    match check_permissions cfg (metaOf fs) (walk dir) with
    | Except.error _ => runRoots cfg walk fs rest
    | Except.ok files =>
      if files.isEmpty then runRoots cfg walk fs rest
      else
        match change_permissions cfg fs files with
        | (fs2, some e) => (fs2, some e)
        | (fs2, none) => runRoots cfg walk fs2 rest

/-- Embedding of `PermissionChecker::run_check` (lines 139-153). -/
def run_check (cfg : Config) (walk : FsPath → List FsPath) (fs : Fs) :
    Fs × Option IOErr :=
  runRoots cfg walk fs cfg.watch_dirs

/-- Embedding of `PermissionChecker::setup_watchers` (lines 131-137): for each watch
directory, `let _ = self.watcher.watch(..)` — the per-root result is
computed and discarded, so the function returns `Ok(())` whatever `watchRes`
says. -/
def setup_watchers (watchRes : FsPath → Except IOErr Unit) :
    List FsPath → Except IOErr Unit
  | [] => Except.ok ()
  | d :: rest =>
    let _discarded := watchRes d
    setup_watchers watchRes rest

/-- Result of a startup that reached the reconciliation loop: the filesystem
after the startup passes and the number of `run_check` invocations that ran
before the loop was entered. -/
structure StartupResult where
  fs : Fs
  startupPasses : Nat
deriving DecidableEq

/-- The startup section of `main` (lines 162-192), from after `Config::load`
up to entering the `loop`: check that every watch directory exists (lines
165-172, first missing one returns `NotFound`), construct the watcher
(`PermissionChecker::new`, whose failure is propagated by `?`;
`watcherCreateOk` says whether `notify::recommended_watcher` succeeds), then
`setup_watchers` / `run_check` — each called twice, exactly as in lines
179-189 — any `?`-propagated error ending `main` before the loop.  `Ok r`
means the process proceeds into the reconciliation loop having executed
`r.startupPasses` passes (one per `run_check` call site). -/
def mainStartup (cfg : Config) (dirExists : FsPath → Bool)
    (watcherCreateOk : Bool) (watchRes : FsPath → Except IOErr Unit)
    (walk : FsPath → List FsPath) (fs : Fs) : Except IOErr StartupResult :=
  if !(cfg.watch_dirs.all dirExists) then Except.error IOErr.notFound
  else if !watcherCreateOk then Except.error IOErr.otherErr
  else
    match setup_watchers watchRes cfg.watch_dirs with
    | Except.error e => Except.error e
    | Except.ok _ =>
      match run_check cfg walk fs with
      | (_, some e) => Except.error e
      | (fs1, none) =>
        match setup_watchers watchRes cfg.watch_dirs with
        | Except.error e => Except.error e
        | Except.ok _ =>
          match run_check cfg walk fs1 with
          | (_, some e) => Except.error e
          | (fs2, none) => Except.ok ⟨fs2, 2⟩

/-!
The event loop (lines 194-211), as a millisecond-step machine.

The `tokio::select!` loop has two branches: the 1-hour interval tick and the
notification branch `event_rx.recv()`, which sleeps a fixed 100 ms and then
runs one pass.  We model the loop as a deterministic machine advanced one
millisecond at a time, fed the number of notifications handed to the mpsc
channel during that millisecond (the watcher callback's `blocking_send`;
the analyzed traces stay far below the channel capacity of 100, so the
channel never blocks and is modelled as an unbounded counter).  The horizon
of every analyzed trace is far below the 3 600 000 ms interval period, and
the machine starts after the interval's immediate first tick has been
consumed, so the timer branch never fires inside a trace.  Transitions are
discretized to whole milliseconds (consuming a queued notification occupies
one step), which shifts boundaries by at most 2 ms and leaves all pass
counts exact.
-/

/-- Where the loop currently is: at the `select!`, inside the 100 ms
`time::sleep` of the notification branch (`l` ms left), or inside
`run_check` (`l` ms left). -/
inductive Phase
  | selecting
  | sleeping : Nat → Phase
  | running : Nat → Phase
deriving DecidableEq

/-- Machine state: current phase, notifications queued in the channel,
notifications consumed by `recv` so far, and passes started so far. -/
structure LoopState where
  phase : Phase
  queue : Nat
  consumed : Nat
  passes : Nat
deriving DecidableEq

/-- Loop state on entering the `loop`. -/
def initLoop : LoopState := ⟨Phase.selecting, 0, 0, 0⟩

/-- One millisecond of the loop: `arrivals` notifications enter the channel,
then the phase advances.  At the `select!`, a queued notification is
consumed and the fixed 100 ms sleep starts; when the sleep expires a pass of
duration `dur` starts; when the pass ends the loop returns to the
`select!`. -/
def stepMs (dur : Nat) (arrivals : Nat) (s : LoopState) : LoopState :=
  let q := s.queue + arrivals
  match s.phase with
  | Phase.selecting =>
    match q with
    | 0 => { s with queue := 0 }
    | Nat.succ q2 =>
      { phase := Phase.sleeping 100, queue := q2,
        consumed := s.consumed + 1, passes := s.passes }
  | Phase.sleeping 0 =>
    { s with phase := Phase.running dur, queue := q, passes := s.passes + 1 }
  | Phase.sleeping (Nat.succ l) => { s with phase := Phase.sleeping l, queue := q }
  | Phase.running 0 => { s with phase := Phase.selecting, queue := q }
  | Phase.running (Nat.succ l) => { s with phase := Phase.running l, queue := q }

/-- Run the loop machine over a trace of per-millisecond arrival counts. -/
def runTrace (dur : Nat) : List Nat → LoopState → LoopState
  | [], s => s
  | a :: tr, s => runTrace dur tr (stepMs dur a s)

/-- One while the loop is inside the 100 ms settle sleep, else zero. -/
def sleepBit : Phase → Nat
  | Phase.sleeping _ => 1
  | _ => 0

/-- Total number of notifications in a trace. -/
def traceSum : List Nat → Nat
  | [] => 0
  | a :: tr => a + traceSum tr

/-- Trace for the debounce claim: two notifications 10 ms apart (at 0 ms and
10 ms), well inside one 100 ms settle window; horizon 220 ms. -/
def c2Trace : List Nat :=
  (List.range 220).map (fun i => if i = 0 ∨ i = 10 then 1 else 0)

/-- Trace for the pending-trigger claim: one notification at 0 ms whose pass
(duration 30 ms) runs during 101-131 ms, and two further notifications at
110 ms and 115 ms, both arriving while that pass is executing; horizon
400 ms. -/
def c7Trace : List Nat :=
  (List.range 400).map (fun i => if i = 0 ∨ i = 110 ∨ i = 115 then 1 else 0)

/-- Decidable equality on `Except`, used to evaluate the embedded functions
on concrete inputs. -/
instance {ε α : Type} [DecidableEq ε] [DecidableEq α] : DecidableEq (Except ε α) := fun x y =>
  match x, y with
  | Except.ok a, Except.ok b => decidable_of_iff (a = b) (by simp)
  | Except.ok _, Except.error _ => isFalse (fun h => Except.noConfusion h)
  | Except.error _, Except.ok _ => isFalse (fun h => Except.noConfusion h)
  | Except.error e, Except.error f => decidable_of_iff (e = f) (by simp)

/-- Holds (as `true`) iff touching this path fails: it is absent, or its metadata read
fails, or its chmod fails. -/
def fileFailsB (fs : Fs) (f : FsPath) : Bool :=
  match fsFind fs f with
  | none => true
  | some i => i.readFails || i.chmodFails

/-!
Concrete fixtures used by counterexamples and witnesses.
-/

/-- Everything is watched, `a` is ignored, target mode `777`. -/
def cfgC1 : Config := ⟨[], [["a"]], "777"⟩

/-- Every path reads as mode `0` (a violation of target `777`). -/
def metaC1 : FsPath → Except IOErr Nat := fun _ => Except.ok 0

/-- Same as `metaC1` except the metadata read of the ignored path
`a/b` fails. -/
def metaC1x : FsPath → Except IOErr Nat :=
  fun q => if q = ["a", "b"] then Except.error IOErr.permDenied else Except.ok 0

/-- Watch root `d`, no ignores, target mode `644`. -/
def cfgC3 : Config := ⟨[["d"]], [], "644"⟩

/-- One file `d/c` with mode `0o600` (384), fully accessible. -/
def fsC3 : Fs := [(["d", "c"], ⟨384, false, false⟩)]

/-- Watch root `r`, no ignores, target mode `777`. -/
def cfgC4 : Config := ⟨[["r"]], [], "777"⟩

/-- Oracle where `r/x` reads as mode `0` and the metadata read of `r/y` fails. -/
def metaC4 : FsPath → Except IOErr Nat :=
  fun p => if p = ["r", "y"] then Except.error IOErr.permDenied else Except.ok 0

/-- Two watch roots `A` then `B`, no ignores, target mode `777`. -/
def cfgC5 : Config := ⟨[["A"], ["B"]], [], "777"⟩

/-- Filesystem where `A/a` is violating and its chmod fails; `B/b` is violating and fully
fixable. -/
def fsC5 : Fs := [(["A", "a"], ⟨0, false, true⟩), (["B", "b"], ⟨0, false, false⟩)]

/-- Traversal of each root of `cfgC5`. -/
def walkC5 : FsPath → List FsPath :=
  fun r => if r = ["A"] then [["A", "a"]] else if r = ["B"] then [["B", "b"]] else []

/-- Same two roots, but the metadata read of `A/a` fails, so root A's scan
(not its fix) fails. -/
def fsC5r : Fs := [(["A", "a"], ⟨0, true, false⟩), (["B", "b"], ⟨0, false, false⟩)]

/-- Watch root `r`, no ignores, target mode `777`. -/
def cfgC6 : Config := ⟨[["r"]], [], "777"⟩

/-- Filesystem where `r/f1` is violating and its chmod fails; `r/f2` is violating and fully
fixable. -/
def fsC6 : Fs := [(["r", "f1"], ⟨0, false, true⟩), (["r", "f2"], ⟨0, false, false⟩)]

/-- Watch root `r`, no ignores, target mode `777`. -/
def cfgC8 : Config := ⟨[["r"]], [], "777"⟩

/-- Traversal of root `r`: the single file `r/x`. -/
def walkC8 : FsPath → List FsPath := fun _ => [["r", "x"]]

/-- Filesystem where `r/x` starts at mode `0`, fully accessible. -/
def fsC8 : Fs := [(["r", "x"], ⟨0, false, false⟩)]

/-- State of `fsC8` after one pass: `r/x` overwritten to mode `0o777` (511). -/
def fsC8fixed : Fs := [(["r", "x"], ⟨511, false, false⟩)]

/-- Watch root `r`, no ignores, target mode `777`. -/
def cfgC9 : Config := ⟨[["r"]], [], "777"⟩

/-- Installing the watch succeeds on every root. -/
def wrOk : FsPath → Except IOErr Unit := fun _ => Except.ok ()

/-- Installing the watch fails on every root. -/
def wrFail : FsPath → Except IOErr Unit := fun _ => Except.error IOErr.permDenied

/-- Watch root `r` and a malformed `desired_permission`: `"99"` is not a
string of octal digits. -/
def cfgC10 : Config := ⟨[["r"]], [], "99"⟩

/-- Traversal of root `r`: the single file `r/x`. -/
def walkC10 : FsPath → List FsPath := fun _ => [["r", "x"]]

/-- Filesystem where `r/x` is at mode `0`, fully accessible. -/
def fsC10 : Fs := [(["r", "x"], ⟨0, false, false⟩)]

/-- The filesystem after the Enforcer has processed `files` successfully:
every entry whose path is in `files` has its mode overwritten with `m`. -/
def fixModes (m : Nat) (files : List FsPath) : Fs → Fs
  | [] => []
  | (q, i) :: rest =>
    (q, if q ∈ files then { i with mode := m } else i) :: fixModes m files rest

/-!
Scanner lemmas.
-/

/-- A path under a configured ignore root is filtered out by
`should_process_file`. -/
lemma should_process_false {cfg : Config} {p d : FsPath}
    (hd : d ∈ cfg.ignore_dirs) (hpre : d.isPrefixOf p = true) :
    should_process_file cfg p = false := by
  simp only [should_process_file, Bool.not_eq_false', List.any_eq_true]
  exact ⟨d, hd, hpre⟩

/-- Soundness of the violation list: every reported path passed the ignore
filter, had a successful metadata read, and its low 9 bits differ from the
target. -/
lemma checkWalk_mem {cfg : Config} {meta : FsPath → Except IOErr Nat}
    {desired : Nat} :
    ∀ {entries vs}, checkWalk cfg meta desired entries = Except.ok vs →
      ∀ {x}, x ∈ vs →
        should_process_file cfg x = true ∧
        ∃ m, meta x = Except.ok m ∧ ((m &&& 511) == desired) = false := by
  intro entries
  induction entries with
  | nil =>
    intro vs h x hx
    simp only [checkWalk] at h
    cases h
    cases hx
  | cons q rest ih =>
    intro vs h x hx
    by_cases hq : should_process_file cfg q = true
    · simp only [checkWalk, hq, if_true] at h
      cases hm : meta q with
      | error e => rw [hm] at h; cases h
      | ok mode =>
        rw [hm] at h
        cases hr : checkWalk cfg meta desired rest with
        | error e => rw [hr] at h; cases h
        | ok vs2 =>
          rw [hr] at h
          by_cases hmode : ((mode &&& 511) == desired) = true
          · simp only [hmode, if_true] at h
            cases h
            exact ih hr hx
          · simp only [hmode, if_false, Bool.not_eq_true] at h
            cases h
            cases hx with
            | head => exact ⟨hq, mode, hm, by simpa using hmode⟩
            | tail _ hx2 => exact ih hr hx2
    · simp only [checkWalk, hq, if_false, Bool.not_eq_true] at h
      exact ih h hx

/-- The scan never consults the metadata of a filtered-out path: changing
`meta` at such a path does not change the scan's result. -/
lemma checkWalk_agree {cfg : Config} {p : FsPath}
    (hsp : should_process_file cfg p = false)
    {meta meta2 : FsPath → Except IOErr Nat}
    (hagree : ∀ q : FsPath, q ≠ p → meta2 q = meta q) (desired : Nat) :
    ∀ entries, checkWalk cfg meta2 desired entries = checkWalk cfg meta desired entries := by
  intro entries
  induction entries with
  | nil => rfl
  | cons q rest ih =>
    by_cases hq : should_process_file cfg q = true
    · have hqp : q ≠ p := by
        intro he
        rw [he, hsp] at hq
        cases hq
      simp only [checkWalk, hq, if_true, hagree q hqp, ih]
    · have hq2 : should_process_file cfg q = false := by simpa using hq
      simp [checkWalk, hq2, ih]

/-- Claim C1: a path `p` under a configured ignore root `d` (component-wise
prefix, `Path::starts_with`) is never reported as a violation by
`check_permissions`, whatever its permission bits; the ignore test runs
before the per-path metadata read, so the scan's result does not depend on
`p`'s metadata at all (second conjunct); and the component-prefix test does
not let an ignore root `foo` match the sibling `foo2` (third conjunct). -/
theorem c1_ignore_scan (cfg : Config) (meta meta2 : FsPath → Except IOErr Nat)
    (entries : List FsPath) (p d : FsPath)
    (hd : d ∈ cfg.ignore_dirs) (hpre : d.isPrefixOf p = true)
    (hagree : ∀ q : FsPath, q ≠ p → meta2 q = meta q) :
    (∀ vs, check_permissions cfg meta entries = Except.ok vs → p ∉ vs) ∧
    check_permissions cfg meta2 entries = check_permissions cfg meta entries ∧
    should_process_file ⟨[], [["foo"]], "777"⟩ ["foo2"] = true := by
  have hsp := should_process_false hd hpre
  refine ⟨?_, ?_, by decide⟩
  · intro vs h hx
    unfold check_permissions at h
    cases hp : fromStrRadix8 cfg.desired_permission with
    | none => rw [hp] at h; cases h
    | some desired =>
      rw [hp] at h
      have := (checkWalk_mem h hx).1
      rw [hsp] at this
      cases this
  · unfold check_permissions
    cases hp : fromStrRadix8 cfg.desired_permission with
    | none => rfl
    | some desired => exact checkWalk_agree hsp hagree desired entries

/-- Witness for C1 at a concrete input: ignore root `a`, path `a/b` under
it, the tree consisting of just `a/b`, and a second metadata oracle whose
read of `a/b` fails. -/
theorem c1_ignore_scan_witness :
    (∀ vs, check_permissions cfgC1 metaC1 [["a", "b"]] = Except.ok vs →
      ["a", "b"] ∉ vs) ∧
    check_permissions cfgC1 metaC1x [["a", "b"]] =
      check_permissions cfgC1 metaC1 [["a", "b"]] ∧
    should_process_file ⟨[], [["foo"]], "777"⟩ ["foo2"] = true :=
  c1_ignore_scan cfgC1 metaC1 metaC1x [["a", "b"]] ["a", "b"] ["a"]
    (by decide) (by decide)
    (fun q hq => by simp [metaC1x, metaC1, hq])

/-!
Enforcer lemmas.
-/

/-- Masking with `0o7777` is the identity below `0o1000`. -/
lemma and4095_of_lt {m : Nat} (h : m < 512) : m &&& 4095 = m := by
  have h12 := Nat.and_pow_two_sub_one_eq_mod m 12
  norm_num at h12
  rw [h12]
  exact Nat.mod_eq_of_lt (lt_trans h (by norm_num))

/-- Masking with `0o777` is the identity below `0o1000`. -/
lemma and511_of_lt {m : Nat} (h : m < 512) : m &&& 511 = m := by
  have h9 := Nat.and_pow_two_sub_one_eq_mod m 9
  norm_num at h9
  rw [h9]
  exact Nat.mod_eq_of_lt h

/-- Looking a path up after `fsSet`. -/
lemma fsFind_fsSet (p q : FsPath) (m : Nat) : ∀ fs : Fs,
    fsFind (fsSet fs p m) q =
      if q = p then (fsFind fs q).map (fun i => { i with mode := m })
      else fsFind fs q := by
  intro fs
  induction fs with
  | nil => by_cases hqp : q = p <;> simp [fsSet, fsFind, hqp]
  | cons e rest ih =>
    obtain ⟨r, i⟩ := e
    simp only [fsSet, fsFind]
    by_cases hrq : r = q
    · subst hrq
      by_cases hrp : r = p <;> simp [hrp]
    · simp [hrq, ih]

/-- Setting a mode with `fsSet` only changes modes, so it preserves `fileFailsB`. -/
lemma fileFailsB_fsSet (fs : Fs) (p g : FsPath) (m : Nat) :
    fileFailsB (fsSet fs p m) g = fileFailsB fs g := by
  unfold fileFailsB
  rw [fsFind_fsSet]
  by_cases hgp : g = p
  · rw [if_pos hgp]
    cases fsFind fs g <;> simp
  · rw [if_neg hgp]

/-- Fixing an empty batch with `fixModes` is the identity. -/
lemma fixModes_nil (m : Nat) : ∀ fs : Fs, fixModes m [] fs = fs := by
  intro fs
  induction fs with
  | nil => rfl
  | cons e rest ih =>
    obtain ⟨q, i⟩ := e
    simp [fixModes, ih]

/-- Setting one file and then fixing the rest is fixing all of them. -/
lemma fixModes_cons (m : Nat) (f : FsPath) (files : List FsPath) :
    ∀ fs : Fs, fixModes m files (fsSet fs f m) = fixModes m (f :: files) fs := by
  intro fs
  induction fs with
  | nil => rfl
  | cons e rest ih =>
    obtain ⟨q, i⟩ := e
    simp only [fsSet, fixModes]
    by_cases hqf : q = f <;> by_cases hqm : q ∈ files <;>
      simp [hqf, hqm, ih]

/-- Looking a path up after `fixModes`. -/
lemma fsFind_fixModes (m : Nat) (files : List FsPath) (q : FsPath) : ∀ fs : Fs,
    fsFind (fixModes m files fs) q =
      if q ∈ files then (fsFind fs q).map (fun i => { i with mode := m })
      else fsFind fs q := by
  intro fs
  induction fs with
  | nil => by_cases hq : q ∈ files <;> simp [fixModes, fsFind, hq]
  | cons e rest ih =>
    obtain ⟨r, i⟩ := e
    simp only [fixModes, fsFind]
    by_cases hrq : r = q
    · subst hrq
      by_cases hrm : r ∈ files <;> simp [hrm]
    · simp [hrq, ih]

/-- Fixing a batch with `fixModes` is idempotent. -/
lemma fixModes_idem (m : Nat) (files : List FsPath) :
    ∀ fs : Fs, fixModes m files (fixModes m files fs) = fixModes m files fs := by
  intro fs
  induction fs with
  | nil => rfl
  | cons e rest ih =>
    obtain ⟨q, i⟩ := e
    simp only [fixModes]
    by_cases hq : q ∈ files <;> simp [hq, ih]

/-- Fixing a batch with `fixModes` preserves `fileFailsB`. -/
lemma fileFailsB_fixModes (m : Nat) (files : List FsPath) (g : FsPath) (fs : Fs) :
    fileFailsB (fixModes m files fs) g = fileFailsB fs g := by
  unfold fileFailsB
  rw [fsFind_fixModes]
  by_cases hg : g ∈ files
  · rw [if_pos hg]
    cases fsFind fs g <;> simp
  · rw [if_neg hg]

/-- When every file of the batch is fully accessible, the Enforcer loop
succeeds and overwrites each one's stored mode with the low 12 bits of the
desired value. -/
lemma changeWalk_ok (desired : Nat) :
    ∀ (files : List FsPath) (fs : Fs),
      (∀ f ∈ files, fileFailsB fs f = false) →
      changeWalk desired fs files = (fixModes (desired &&& 4095) files fs, none) := by
  intro files
  induction files with
  | nil =>
    intro fs _
    simp [changeWalk, fixModes_nil]
  | cons f rest ih =>
    intro fs h
    have hf : fileFailsB fs f = false := h f (List.mem_cons_self f rest)
    cases hfind : fsFind fs f with
    | none =>
      unfold fileFailsB at hf
      rw [hfind] at hf
      cases hf
    | some i =>
      have hflags : i.readFails = false ∧ i.chmodFails = false := by
        unfold fileFailsB at hf
        rw [hfind] at hf
        simpa using hf
      have hmeta : metaOf fs f = Except.ok i.mode := by
        simp [metaOf, hfind, hflags.1]
      have hch : chmodAt fs f desired = (fsSet fs f (desired &&& 4095), none) := by
        simp [chmodAt, hfind, hflags.2]
      have hrest : ∀ g ∈ rest, fileFailsB (fsSet fs f (desired &&& 4095)) g = false := by
        intro g hg
        rw [fileFailsB_fsSet]
        exact h g (List.mem_cons_of_mem _ hg)
      calc changeWalk desired fs (f :: rest)
          = changeWalk desired (fsSet fs f (desired &&& 4095)) rest := by
            simp [changeWalk, hmeta, hch]
        _ = (fixModes (desired &&& 4095) rest (fsSet fs f (desired &&& 4095)), none) :=
            ih _ hrest
        _ = (fixModes (desired &&& 4095) (f :: rest) fs, none) := by
            rw [fixModes_cons]

/-- Claim C3: with a well-formed 9-bit target mode, the Enforcer overwrites
each fixed file's permission bits with exactly the target (whatever the
previous bits were — no merge/OR), running it a second time on the same
violation set changes nothing (same final filesystem, same result), and a
scan of the resulting filesystem never reports a fixed file again. -/
theorem c3_enforcer (cfg : Config) (fs : Fs) (files : List FsPath) (desired : Nat)
    (hparse : fromStrRadix8 cfg.desired_permission = some desired)
    (hdes : desired < 512)
    (hfiles : ∀ f ∈ files, fileFailsB fs f = false) :
    (change_permissions cfg fs files).2 = none ∧
    (∀ f ∈ files, ∃ i, fsFind (change_permissions cfg fs files).1 f = some i ∧
      i.mode = desired) ∧
    change_permissions cfg (change_permissions cfg fs files).1 files =
      change_permissions cfg fs files ∧
    ∀ entries vs,
      check_permissions cfg (metaOf (change_permissions cfg fs files).1) entries =
        Except.ok vs → ∀ f ∈ files, f ∉ vs := by
  have hd4 : desired &&& 4095 = desired := and4095_of_lt hdes
  have hcw := changeWalk_ok desired files fs hfiles
  rw [hd4] at hcw
  have hcp : change_permissions cfg fs files = (fixModes desired files fs, none) := by
    unfold change_permissions
    rw [hparse]
    exact hcw
  have hfindF : ∀ f ∈ files, ∃ i0, fsFind fs f = some i0 ∧
      i0.readFails = false ∧ i0.chmodFails = false := by
    intro f hf
    have hff := hfiles f hf
    unfold fileFailsB at hff
    cases hfind : fsFind fs f with
    | none => rw [hfind] at hff; cases hff
    | some i0 =>
      rw [hfind] at hff
      exact ⟨i0, rfl, by simpa using hff⟩
  refine ⟨by rw [hcp], ?_, ?_, ?_⟩
  · intro f hf
    obtain ⟨i0, hfind, _, _⟩ := hfindF f hf
    rw [hcp]
    refine ⟨{ i0 with mode := desired }, ?_, rfl⟩
    rw [fsFind_fixModes, if_pos hf, hfind]
    rfl
  · rw [hcp]
    have hfiles2 : ∀ f ∈ files, fileFailsB (fixModes desired files fs) f = false := by
      intro f hf
      rw [fileFailsB_fixModes]
      exact hfiles f hf
    have hcw2 := changeWalk_ok desired files (fixModes desired files fs) hfiles2
    rw [hd4, fixModes_idem] at hcw2
    unfold change_permissions
    rw [hparse]
    exact hcw2
  · intro entries vs h f hf hmem
    rw [hcp] at h
    unfold check_permissions at h
    rw [hparse] at h
    obtain ⟨_, m, hm, hne⟩ := checkWalk_mem h hmem
    obtain ⟨i0, hfind, hr, _⟩ := hfindF f hf
    have hmf : metaOf (fixModes desired files fs) f = Except.ok desired := by
      unfold metaOf
      rw [fsFind_fixModes, if_pos hf, hfind]
      simp [hr]
    rw [hmf] at hm
    have hmd : desired = m := Except.ok.inj hm
    rw [← hmd, and511_of_lt hdes] at hne
    simp at hne

/-- Witness for C3 at a concrete input: target mode `644` (420), one file
`d/c` starting at mode `0o600` (384). -/
theorem c3_enforcer_witness :
    (change_permissions cfgC3 fsC3 [["d", "c"]]).2 = none ∧
    (∀ f ∈ ([["d", "c"]] : List FsPath),
      ∃ i, fsFind (change_permissions cfgC3 fsC3 [["d", "c"]]).1 f = some i ∧
        i.mode = 420) ∧
    change_permissions cfgC3 (change_permissions cfgC3 fsC3 [["d", "c"]]).1
        [["d", "c"]] =
      change_permissions cfgC3 fsC3 [["d", "c"]] ∧
    ∀ entries vs,
      check_permissions cfgC3 (metaOf (change_permissions cfgC3 fsC3 [["d", "c"]]).1)
        entries = Except.ok vs → ∀ f ∈ ([["d", "c"]] : List FsPath), f ∉ vs :=
  c3_enforcer cfgC3 fsC3 [["d", "c"]] 420 (by decide) (by decide) (by decide)

/-!
Error propagation in the scan.
-/

/-- If the metadata read of any entry that passes the ignore filter fails,
the whole walk returns an error. -/
lemma checkWalk_err {cfg : Config} {meta : FsPath → Except IOErr Nat}
    {desired : Nat} {p : FsPath} {e : IOErr}
    (hproc : should_process_file cfg p = true) (hmeta : meta p = Except.error e) :
    ∀ entries, p ∈ entries →
      ∃ e2, checkWalk cfg meta desired entries = Except.error e2 := by
  intro entries
  induction entries with
  | nil => intro hp; cases hp
  | cons q rest ih =>
    intro hp
    by_cases hq : should_process_file cfg q = true
    · cases hm : meta q with
      | error e3 =>
        exact ⟨e3, by simp [checkWalk, hq, hm]⟩
      | ok mode =>
        have hpq : p ≠ q := by
          intro he
          rw [he, hm] at hmeta
          cases hmeta
        have hprest : p ∈ rest := by
          cases hp with
          | head => exact absurd rfl hpq
          | tail _ h2 => exact h2
        obtain ⟨e2, he2⟩ := ih hprest
        refine ⟨e2, ?_⟩
        simp [checkWalk, hq, hm, he2]
    · have hpq : p ≠ q := by
        intro he
        rw [← he] at hq
        exact hq hproc
      have hprest : p ∈ rest := by
        cases hp with
        | head => exact absurd rfl hpq
        | tail _ h2 => exact h2
      obtain ⟨e2, he2⟩ := ih hprest
      have hq2 : should_process_file cfg q = false := by simpa using hq
      exact ⟨e2, by simp [checkWalk, hq2, he2]⟩

/-- Claim C4 counterexample: root `r` contains `r/x` (a violation, mode `0`
against target `777`) and `r/y`, whose metadata read fails.  The claim says
the failure is skipped and the violations found are still returned; instead
`check_permissions` returns the error and reports nothing. -/
theorem c4_counterexample :
    metaC4 ["r", "x"] = Except.ok 0 ∧
    metaC4 ["r", "y"] = Except.error IOErr.permDenied ∧
    check_permissions cfgC4 metaC4 [["r", "x"], ["r", "y"]] =
      Except.error IOErr.permDenied ∧
    ∀ vs, check_permissions cfgC4 metaC4 [["r", "x"], ["r", "y"]] ≠ Except.ok vs := by
  refine ⟨by decide, by decide, by decide, fun vs h => ?_⟩
  rw [show check_permissions cfgC4 metaC4 [["r", "x"], ["r", "y"]] =
      Except.error IOErr.permDenied from by decide] at h
  exact Except.noConfusion h

/-- Claim C4 amended: a metadata-read failure on a visited (non-ignored)
path is not skipped — it aborts that root's scan, which returns an error
and no violation list at all (the error is then caught per root in
`run_check`; only traversal errors of the walker itself are silently
dropped by `.filter_map(|e| e.ok())`). -/
theorem c4_amended (cfg : Config) (meta : FsPath → Except IOErr Nat)
    (entries : List FsPath) (p : FsPath) (e : IOErr)
    (hp : p ∈ entries) (hproc : should_process_file cfg p = true)
    (hmeta : meta p = Except.error e) :
    (∃ e2, check_permissions cfg meta entries = Except.error e2) ∧
    ∀ vs, check_permissions cfg meta entries ≠ Except.ok vs := by
  have hmain : ∃ e2, check_permissions cfg meta entries = Except.error e2 := by
    unfold check_permissions
    cases hpr : fromStrRadix8 cfg.desired_permission with
    | none => exact ⟨IOErr.invalidInput, rfl⟩
    | some desired => exact checkWalk_err hproc hmeta entries hp
  refine ⟨hmain, fun vs h => ?_⟩
  obtain ⟨e2, he2⟩ := hmain
  rw [he2] at h
  exact Except.noConfusion h

/-- Witness for C4 amended, at the `cfgC4` fixture: the failing path is
`r/y`. -/
theorem c4_amended_witness :
    (∃ e2, check_permissions cfgC4 metaC4 [["r", "x"], ["r", "y"]] =
      Except.error e2) ∧
    ∀ vs, check_permissions cfgC4 metaC4 [["r", "x"], ["r", "y"]] ≠ Except.ok vs :=
  c4_amended cfgC4 metaC4 [["r", "x"], ["r", "y"]] ["r", "y"] IOErr.permDenied
    (by decide) (by decide) (by decide)

/-!
Per-root isolation in the embedded run_check.
-/

/-- Claim C5 counterexample: root `A` is listed before root `B`; `A/a` is a
violation whose chmod fails, `B/b` is a fixable violation.  The fix error
in root `A` is propagated by `?` out of `run_check`, so root `B` is never
scanned or fixed in that pass: the pass ends with the error and `B/b` still
at mode `0`. -/
theorem c5_counterexample :
    run_check cfgC5 walkC5 fsC5 = (fsC5, some IOErr.permDenied) ∧
    check_permissions cfgC5 (metaOf fsC5) (walkC5 ["B"]) = Except.ok [["B", "b"]] ∧
    fsFind (run_check cfgC5 walkC5 fsC5).1 ["B", "b"] = some ⟨0, false, false⟩ := by
  decide

/-- Claim C5 amended: a *scan* error in one root is indeed isolated — the
pass continues with the remaining roots exactly as if the failed root were
absent — but a *fix* (`change_permissions`) error in one root is propagated
by `?` and aborts the pass, skipping every subsequent root. -/
theorem c5_amended (cfg : Config) (walk : FsPath → List FsPath) (fs : Fs)
    (A : FsPath) (rest : List FsPath) :
    (∀ e, check_permissions cfg (metaOf fs) (walk A) = Except.error e →
      runRoots cfg walk fs (A :: rest) = runRoots cfg walk fs rest) ∧
    (∀ files fs2 e, check_permissions cfg (metaOf fs) (walk A) = Except.ok files →
      files.isEmpty = false →
      change_permissions cfg fs files = (fs2, some e) →
      runRoots cfg walk fs (A :: rest) = (fs2, some e)) := by
  constructor
  · intro e h
    simp [runRoots, h]
  · intro files fs2 e h1 h2 h3
    simp [runRoots, h1, h2, h3]

/-- Witness for C5 amended: the scan-isolation half at `fsC5r` (root `A`'s
metadata read fails, so its scan errors and root `B` proceeds), and the
fix-abort half at `fsC5` (root `A`'s chmod fails, ending the pass). -/
theorem c5_amended_witness :
    runRoots cfgC5 walkC5 fsC5r [["A"], ["B"]] = runRoots cfgC5 walkC5 fsC5r [["B"]] ∧
    runRoots cfgC5 walkC5 fsC5 [["A"], ["B"]] = (fsC5, some IOErr.permDenied) :=
  ⟨(c5_amended cfgC5 walkC5 fsC5r ["A"] [["B"]]).1 IOErr.permDenied (by decide),
   (c5_amended cfgC5 walkC5 fsC5 ["A"] [["B"]]).2 [["A", "a"]] fsC5 IOErr.permDenied
     (by decide) (by decide) (by decide)⟩

/-!
Error propagation in the Enforcer batch.
-/

/-- If any file of the batch cannot be touched (absent, unreadable
metadata, or failing chmod), the Enforcer loop ends with an error rather
than success. -/
lemma changeWalk_err (desired : Nat) {f : FsPath} :
    ∀ (files : List FsPath) (fs : Fs), f ∈ files → fileFailsB fs f = true →
      ∃ e, (changeWalk desired fs files).2 = some e := by
  intro files
  induction files with
  | nil => intro fs hf _; cases hf
  | cons g rest ih =>
    intro fs hf hfail
    cases hfind : fsFind fs g with
    | none =>
      exact ⟨IOErr.notFound, by simp [changeWalk, metaOf, hfind]⟩
    | some i =>
      by_cases hr : i.readFails = true
      · exact ⟨IOErr.permDenied, by simp [changeWalk, metaOf, hfind, hr]⟩
      · have hr2 : i.readFails = false := by simpa using hr
        by_cases hc : i.chmodFails = true
        · exact ⟨IOErr.permDenied, by simp [changeWalk, metaOf, chmodAt, hfind, hr2, hc]⟩
        · have hc2 : i.chmodFails = false := by simpa using hc
          have hgok : fileFailsB fs g = false := by
            simp [fileFailsB, hfind, hr2, hc2]
          have hfg : f ≠ g := by
            intro he
            rw [he, hgok] at hfail
            cases hfail
          have hfrest : f ∈ rest := by
            cases hf with
            | head => exact absurd rfl hfg
            | tail _ h2 => exact h2
          have hfail2 : fileFailsB (fsSet fs g (desired &&& 4095)) f = true := by
            rw [fileFailsB_fsSet]
            exact hfail
          obtain ⟨e, he⟩ := ih (fsSet fs g (desired &&& 4095)) hfrest hfail2
          refine ⟨e, ?_⟩
          calc (changeWalk desired fs (g :: rest)).2
              = (changeWalk desired (fsSet fs g (desired &&& 4095)) rest).2 := by
                simp [changeWalk, metaOf, chmodAt, hfind, hr2, hc2]
            _ = some e := he

/-- Claim C6 counterexample: the batch is `[r/f1, r/f2]`, both violating;
`r/f1`'s chmod fails.  The claim says the remaining file is still processed
and the call returns success; instead `change_permissions` aborts at `r/f1`
(the `?` on `fs::set_permissions`), leaves `r/f2` untouched at mode `0`,
and returns the error. -/
theorem c6_counterexample :
    change_permissions cfgC6 fsC6 [["r", "f1"], ["r", "f2"]] =
      (fsC6, some IOErr.permDenied) ∧
    (change_permissions cfgC6 fsC6 [["r", "f1"], ["r", "f2"]]).2 ≠ none ∧
    fsFind (change_permissions cfgC6 fsC6 [["r", "f1"], ["r", "f2"]]).1 ["r", "f2"] =
      some ⟨0, false, false⟩ := by
  decide

/-- Claim C6 amended: a failure to change one file's permissions aborts the
batch — `change_permissions` stops at the first failing file (whose chmod
or metadata read fails, or which is absent) and returns the error; the
files after it in the batch are left unprocessed, as the counterexample
shows concretely. -/
theorem c6_amended (cfg : Config) (fs : Fs) (files : List FsPath) (f : FsPath)
    (desired : Nat)
    (hparse : fromStrRadix8 cfg.desired_permission = some desired)
    (hf : f ∈ files) (hfail : fileFailsB fs f = true) :
    ∃ e, (change_permissions cfg fs files).2 = some e := by
  unfold change_permissions
  rw [hparse]
  exact changeWalk_err desired files fs hf hfail

/-- Witness for C6 amended at the `cfgC6` fixture: the failing file is
`r/f1`. -/
theorem c6_amended_witness :
    ∃ e, (change_permissions cfgC6 fsC6 [["r", "f1"], ["r", "f2"]]).2 = some e :=
  c6_amended cfgC6 fsC6 [["r", "f1"], ["r", "f2"]] ["r", "f1"] 511
    (by decide) (by decide) (by decide)

/-!
Event-loop accounting.
-/

/-- One step neither invents nor drops notifications: consumed plus queued
grows exactly by the arrivals. -/
lemma stepMs_cq (dur a : Nat) (s : LoopState) :
    (stepMs dur a s).consumed + (stepMs dur a s).queue = s.consumed + s.queue + a := by
  rcases s with ⟨ph, q, c, ps⟩
  cases ph with
  | selecting =>
    cases hq : q + a with
    | zero => simp [stepMs, hq]; omega
    | succ q2 => simp [stepMs, hq]; omega
  | sleeping l => cases l <;> simp [stepMs] <;> omega
  | running l => cases l <;> simp [stepMs] <;> omega

/-- Every consumed notification is matched by its own started pass, except
for the single one whose 100 ms settle sleep is currently in flight. -/
lemma stepMs_inv (dur a : Nat) (s : LoopState)
    (h : s.consumed = s.passes + sleepBit s.phase) :
    (stepMs dur a s).consumed =
      (stepMs dur a s).passes + sleepBit (stepMs dur a s).phase := by
  rcases s with ⟨ph, q, c, ps⟩
  cases ph with
  | selecting =>
    cases hq : q + a with
    | zero => simpa [stepMs, hq, sleepBit] using h
    | succ q2 =>
      simp [stepMs, hq, sleepBit] at h ⊢
      omega
  | sleeping l =>
    cases l with
    | zero =>
      simp [stepMs, sleepBit] at h ⊢
      omega
    | succ l2 => simpa [stepMs, sleepBit] using h
  | running l =>
    cases l <;> simpa [stepMs, sleepBit] using h

/-- Arrival accounting over a whole trace. -/
lemma runTrace_cq (dur : Nat) : ∀ (tr : List Nat) (s : LoopState),
    (runTrace dur tr s).consumed + (runTrace dur tr s).queue =
      s.consumed + s.queue + traceSum tr := by
  intro tr
  induction tr with
  | nil => intro s; simp [runTrace, traceSum]
  | cons a tr2 ih =>
    intro s
    simp only [runTrace]
    rw [ih (stepMs dur a s), stepMs_cq]
    simp [traceSum]
    omega

/-- Pass accounting over a whole trace. -/
lemma runTrace_inv (dur : Nat) : ∀ (tr : List Nat) (s : LoopState),
    s.consumed = s.passes + sleepBit s.phase →
    (runTrace dur tr s).consumed =
      (runTrace dur tr s).passes + sleepBit (runTrace dur tr s).phase := by
  intro tr
  induction tr with
  | nil => intro s h; simpa [runTrace] using h
  | cons a tr2 ih =>
    intro s h
    simp only [runTrace]
    exact ih (stepMs dur a s) (stepMs_inv dur a s h)

set_option maxRecDepth 1000000 in
/-- Claim C2 counterexample: two notifications 10 ms apart (0 ms and
10 ms), both strictly within one 100 ms settle window — the second arrives
while the sleep is still open (the loop is at `sleeping 91` after 10 ms) —
yet two event-triggered passes run, not one: the 100 ms sleep is a one-shot
delay after the first `recv`, it is not restarted, and the second
notification stays queued in the channel and later triggers its own pass. -/
theorem c2_counterexample :
    (runTrace 5 (c2Trace.take 10) initLoop).phase = Phase.sleeping 91 ∧
    (runTrace 5 c2Trace initLoop).passes = 2 ∧
    (runTrace 5 c2Trace initLoop).passes ≠ 1 := by
  decide

set_option maxRecDepth 1000000 in
/-- Claim C2 amended: a burst of notifications within the settle window
yields one pass per notification, not one per burst.  Over any arrival
trace, consumed-plus-queued notifications equal exactly the arrivals, and
every consumed notification starts its own pass (except the single one
whose fixed 100 ms sleep is in flight); the sleep never restarts, so the
two-notification burst of `c2Trace` produces exactly two passes. -/
theorem c2_amended (dur : Nat) (tr : List Nat) :
    (runTrace dur tr initLoop).consumed + (runTrace dur tr initLoop).queue =
      traceSum tr ∧
    (runTrace dur tr initLoop).consumed =
      (runTrace dur tr initLoop).passes +
        sleepBit (runTrace dur tr initLoop).phase ∧
    (runTrace 5 c2Trace initLoop).passes = 2 := by
  refine ⟨?_, ?_, by decide⟩
  · have h := runTrace_cq dur tr initLoop
    simpa [initLoop] using h
  · exact runTrace_inv dur tr initLoop rfl

set_option maxRecDepth 1000000 in
/-- Claim C7 counterexample: a pass of duration 30 ms is executing at
110 ms (the loop is at `running 22`, one pass started); two further
notifications arrive at 110 ms and 115 ms, while that pass is executing.
The claim says exactly one additional pass results (two in total); instead
each queued notification triggers its own pass and three passes run. -/
theorem c7_counterexample :
    (runTrace 30 (c7Trace.take 110) initLoop).phase = Phase.running 22 ∧
    (runTrace 30 (c7Trace.take 110) initLoop).passes = 1 ∧
    (runTrace 30 c7Trace initLoop).passes = 3 ∧
    (runTrace 30 c7Trace initLoop).passes ≠ 2 := by
  decide

set_option maxRecDepth 1000000 in
/-- Claim C7 amended: at most one pass executes at a time (the loop is a
single sequential consumer), but triggers arriving while a pass is
executing are not coalesced into one pending pass: each is buffered
individually in the channel and produces its own later pass — the passes
started (plus the one notification still in its settle sleep) always equal
the arrivals minus what is still queued, and in the concrete busy-pass
scenario of `c7Trace` the two triggers that arrived during the running pass
produce two additional passes, three in total. -/
theorem c7_amended (dur : Nat) (tr : List Nat) :
    (runTrace dur tr initLoop).passes + sleepBit (runTrace dur tr initLoop).phase =
      traceSum tr - (runTrace dur tr initLoop).queue ∧
    (runTrace 30 c7Trace initLoop).passes = 3 := by
  refine ⟨?_, by decide⟩
  have h1 := runTrace_cq dur tr initLoop
  have h2 := runTrace_inv dur tr initLoop rfl
  simp only [show initLoop.consumed = 0 from rfl, show initLoop.queue = 0 from rfl] at h1
  omega

/-!
Startup.
-/

/-- Installing watches with `setup_watchers` never fails: every per-root watch result is discarded
by `let _ = ..`. -/
lemma setup_watchers_ok (watchRes : FsPath → Except IOErr Unit) :
    ∀ dirs, setup_watchers watchRes dirs = Except.ok () := by
  intro dirs
  induction dirs with
  | nil => rfl
  | cons d rest ih => simpa [setup_watchers] using ih

/-- Claim C8 (the code at the failing input): the startup section of `main`
duplicates its watcher setup and initial check — `setup_watchers` and
`run_check` are each called twice (lines 179-189) — so a successful startup
always executes two unconditional passes before the loop is entered, where
the claim requires exactly one.  Concretely with one violating file `r/x`:
the first pass fixes it to mode `0o777` and the second pass rescans. -/
theorem c8_startup_two_passes :
    mainStartup cfgC8 (fun _ => true) true wrOk walkC8 fsC8 =
      Except.ok ⟨fsC8fixed, 2⟩ ∧
    (2 : Nat) ≠ 1 := by
  decide

/-- Claim C9 counterexample: installing the watch fails on every root
(`wrFail`), yet startup completes and the process proceeds into the loop —
there is no non-zero exit, because `setup_watchers` discards the result of
`watcher.watch(..)` with `let _ =`. -/
theorem c9_counterexample :
    wrFail ["r"] = Except.error IOErr.permDenied ∧
    mainStartup cfgC9 (fun _ => true) true wrFail (fun _ => []) [] =
      Except.ok ⟨[], 2⟩ := by
  decide

/-- Claim C9 amended: failure to construct the watcher itself
(`notify::recommended_watcher` inside `PermissionChecker::new`, propagated
by `?`) is startup-fatal, but a failure to install the watch on an
individual root is silently discarded: `setup_watchers` returns success
whatever the per-root watch results are, and the process proceeds into the
loop unwatched. -/
theorem c9_amended :
    (∀ (watchRes : FsPath → Except IOErr Unit) (dirs : List FsPath),
      setup_watchers watchRes dirs = Except.ok ()) ∧
    ∀ (cfg : Config) (watchRes : FsPath → Except IOErr Unit)
      (walk : FsPath → List FsPath) (fs : Fs),
      mainStartup cfg (fun _ => true) false watchRes walk fs =
        Except.error IOErr.otherErr := by
  refine ⟨setup_watchers_ok, ?_⟩
  intro cfg wr walk fs
  have hall : cfg.watch_dirs.all (fun _ => true) = true :=
    List.all_eq_true.mpr (fun x _ => rfl)
  simp [mainStartup, hall]

/-- Claim C10 counterexample: `"99"` is not a string of octal digits, yet
the process does not fail at startup: both startup passes complete (each
per-root scan fails with `InvalidInput` and is merely logged by
`run_check`) and the loop is entered. -/
theorem c10_counterexample :
    fromStrRadix8 cfgC10.desired_permission = none ∧
    mainStartup cfgC10 (fun _ => true) true wrOk walkC10 fsC10 =
      Except.ok ⟨fsC10, 2⟩ := by
  decide

/-- Claim C10 amended: a malformed (non-octal) `desired_permission` is not
rejected at startup.  The octal parse happens inside each scan:
`check_permissions` fails with `InvalidInput`, `run_check` catches and logs
the failure per root and returns success with the filesystem untouched, so
startup completes, the process enters the loop, and every later scan fails
the same way. -/
theorem c10_amended (cfg : Config) (meta : FsPath → Except IOErr Nat)
    (entries : List FsPath) (walk : FsPath → List FsPath) (fs : Fs)
    (watchRes : FsPath → Except IOErr Unit)
    (hbad : fromStrRadix8 cfg.desired_permission = none) :
    check_permissions cfg meta entries = Except.error IOErr.invalidInput ∧
    run_check cfg walk fs = (fs, none) ∧
    mainStartup cfg (fun _ => true) true watchRes walk fs =
      Except.ok ⟨fs, 2⟩ := by
  have hcp : ∀ (meta2 : FsPath → Except IOErr Nat) (es : List FsPath),
      check_permissions cfg meta2 es = Except.error IOErr.invalidInput := by
    intro meta2 es
    unfold check_permissions
    rw [hbad]
  have hrr : ∀ (fs2 : Fs) (dirs : List FsPath),
      runRoots cfg walk fs2 dirs = (fs2, none) := by
    intro fs2 dirs
    induction dirs with
    | nil => rfl
    | cons d rest ih => simp [runRoots, hcp, ih]
  have hall : cfg.watch_dirs.all (fun _ => true) = true :=
    List.all_eq_true.mpr (fun x _ => rfl)
  refine ⟨hcp meta entries, hrr fs cfg.watch_dirs, ?_⟩
  simp [mainStartup, hall, run_check, setup_watchers_ok, hrr]

/-- Witness for C10 amended at the `cfgC10` fixture
(`desired_permission = "99"`). -/
theorem c10_amended_witness :
    check_permissions cfgC10 (metaOf fsC10) [["r", "x"]] =
      Except.error IOErr.invalidInput ∧
    run_check cfgC10 walkC10 fsC10 = (fsC10, none) ∧
    mainStartup cfgC10 (fun _ => true) true wrOk walkC10 fsC10 =
      Except.ok ⟨fsC10, 2⟩ :=
  c10_amended cfgC10 (metaOf fsC10) [["r", "x"]] walkC10 fsC10 wrOk (by decide)

end DirPermWatcher
